import Mathlib

/-!
Verification model of the data-partitioning subsystem in
`src/examples/gp_regression_example.py` (classes `VectorDataset` and
`RandomDataModule`).

Modelling conventions:
* Tensors of shape (rows, cols) are `List (List α)`; rows are inner lists.
* The Python float literals `0.8` and `0.1` are modelled by the exact
  rational values of their IEEE-754 binary64 representations
  (`3602879701896397 / 2^52` and `3602879701896397 / 2^55`).  The float
  products `train_pct * samples` and `val_pct * samples` are modelled
  with the binary64 rounding they actually perform: `samples` is first
  converted to binary64 (rounding its integer value to 53 significant
  bits, `roundSig`), the exact product then has the form
  `c * roundSig samples / 2^k` with `c` the literal's 53-bit significand,
  and correct rounding of that product is `roundSig (c * roundSig samples)
  / 2^k`, because rounding to 53 significant bits is invariant under the
  exact power-of-two scaling and all values involved are far inside the
  normal (non-overflowing, non-subnormal) binary64 range.
* `math.floor` on a nonnegative value is `mathFloor` followed by `Int.toNat`.
* `torch.randperm` is an external permutation source: `setup` receives the
  drawn index list `random_indices` as an explicit argument.
* Fallible Python operations (indexing, `DataLoader` construction) return
  `Option`; `none` models a raised exception.
* `torch.utils.data.DataLoader(dataset, num_workers, batch_size)` validates
  `batch_size > 0` at construction and, when iterated with
  `drop_last=False` (the default), yields `ceil(len(dataset)/batch_size)`
  batches; it does not touch the dataset's contents at construction time.
-/

namespace GPExample

/-- Exact rational value of the IEEE-754 binary64 literal `0.8`
(line 53 of the source: `train_pct = 0.8`). -/
def train_pct : ℚ := 3602879701896397 / 2 ^ 52

/-- Exact rational value of the IEEE-754 binary64 literal `0.1`
(line 54 of the source: `val_pct = 0.1`). -/
def val_pct : ℚ := 3602879701896397 / 2 ^ 55

/-- Python `math.floor` on an exact rational (`q.num / q.den` is the
floor because `Rat.den` is positive; proved equal to `Int.floor` below). -/
def mathFloor (q : ℚ) : ℤ := q.num / q.den

/-- IEEE-754 round-to-nearest, ties-to-even, of a nonnegative integer to
53 significant bits (the binary64 significand width).  A value below
`2^53` is exact; otherwise the excess low `s` bits (where
`s = log2 m - 52`) are rounded away: down when the remainder is below
half an ulp, up when above, and to the even quotient on a tie. -/
def roundSig (m : ℕ) : ℕ :=
  if m < 2 ^ 53 then m
  else if m % 2 ^ (Nat.log2 m - 52) < 2 ^ (Nat.log2 m - 52 - 1) then
    m / 2 ^ (Nat.log2 m - 52) * 2 ^ (Nat.log2 m - 52)
  else if 2 ^ (Nat.log2 m - 52 - 1) < m % 2 ^ (Nat.log2 m - 52) then
    (m / 2 ^ (Nat.log2 m - 52) + 1) * 2 ^ (Nat.log2 m - 52)
  else
    (m / 2 ^ (Nat.log2 m - 52) + m / 2 ^ (Nat.log2 m - 52) % 2) *
      2 ^ (Nat.log2 m - 52)

/-- Value of the binary64 product `train_pct * samples` (source line 62):
`samples` is converted to binary64 (`roundSig samples`), the exact
product is `3602879701896397 * roundSig samples / 2^52` (numerator with
`train_pct`'s significand), and the correctly rounded binary64 result is
that value with the numerator rounded to 53 significant bits — the
power-of-two scaling is exact. -/
def train_pct_times (samples : ℕ) : ℚ :=
  (roundSig (3602879701896397 * roundSig samples) : ℚ) / 2 ^ 52

/-- Value of the binary64 product `val_pct * samples` (source line 63):
same construction as `train_pct_times`; `val_pct` has the same
significand `3602879701896397` and exponent smaller by 3. -/
def val_pct_times (samples : ℕ) : ℚ :=
  (roundSig (3602879701896397 * roundSig samples) : ℚ) / 2 ^ 55

/-- Python/torch integer indexing into a sequence: indices in
`[0, len)` index from the front, indices in `[-len, 0)` index from the
back, anything else raises `IndexError` (modelled as `none`). -/
def pyGetIdx (l : List β) (idx : ℤ) : Option β :=
  if 0 ≤ idx then l.get? idx.toNat
  else if 0 ≤ idx + l.length then l.get? (idx + l.length).toNat
  else none

/-- Python slice `l[a:b]` for nonnegative bounds (empty when `b ≤ a`,
clamped at the end of the list). -/
def pySlice (a b : ℕ) (l : List α) : List α :=
  (l.drop a).take (b - a)

/-- torch fancy indexing `data[random_indices]`: row `j` of the result is
row `random_indices[j]` of `data`. -/
def indexSelect (l : List (List α)) (indices : List ℕ) : List (List α) :=
  indices.map fun i => l.getD i []

/-- `VectorDataset` (source lines 13-27): wraps the two column slices.
The fields are `Option` because before `setup()` the module passes the
Python value `None` for both. -/
structure VectorDataset (α : Type) where
  input_data : Option (List (List α))
  output_data : Option (List (List α))
  deriving DecidableEq

/-- `VectorDataset.__len__` (source lines 21-23): `len(self.input_data)`;
raises (`none`) when `input_data` is `None`. -/
def VectorDataset.len (ds : VectorDataset α) : Option ℕ :=
  ds.input_data.map List.length

/-- `VectorDataset.__getitem__` (source lines 25-27):
`return self.input_data[idx], self.output_data[idx]`. -/
def VectorDataset.getItem (ds : VectorDataset α) (idx : ℤ) :
    Option (List α × List α) := do
  let inp ← ds.input_data
  let out ← ds.output_data
  let a ← pyGetIdx inp idx
  let b ← pyGetIdx out idx
  pure (a, b)

/-- A constructed `torch.utils.data.DataLoader`. -/
structure DataLoader (α : Type) where
  dataset : VectorDataset α
  num_workers : ℕ
  batch_size : ℕ
  deriving DecidableEq

/-- `DataLoader` construction: torch raises `ValueError` when
`batch_size ≤ 0`; otherwise construction succeeds without reading the
dataset. -/
def DataLoader.make (dataset : VectorDataset α) (num_workers batch_size : ℕ) :
    Option (DataLoader α) :=
  if batch_size = 0 then none else some ⟨dataset, num_workers, batch_size⟩

/-- Number of batches a constructed loader yields per epoch
(`drop_last=False`): `ceil(len(dataset)/batch_size)`; `none` when taking
the dataset's length raises. -/
def DataLoader.numBatches (dl : DataLoader α) : Option ℕ :=
  dl.dataset.len.map fun n => (n + dl.batch_size - 1) / dl.batch_size

/-- The only hyperparameter the data module reads (`--data_num_workers`). -/
structure HParams where
  data_num_workers : ℕ

/-- State of `RandomDataModule` (source lines 32-49).  The six partition
fields are `None` until `setup()` assigns them. -/
structure RandomDataModule (α : Type) where
  hparams : HParams
  data : List (List α)
  batch_size : ℕ
  train_input_data : Option (List (List α))
  train_output_data : Option (List (List α))
  val_input_data : Option (List (List α))
  val_output_data : Option (List (List α))
  test_input_data : Option (List (List α))
  test_output_data : Option (List (List α))

/-- `RandomDataModule.__init__` (source lines 35-49): stores the data,
sets `batch_size = len(self.data)` and leaves all partitions `None`. -/
def RandomDataModule.init (hparams : HParams) (data : List (List α)) :
    RandomDataModule α :=
  { hparams := hparams
    data := data
    batch_size := data.length
    train_input_data := none
    train_output_data := none
    val_input_data := none
    val_output_data := none
    test_input_data := none
    test_output_data := none }

/-- `RandomDataModule._split_input_output_data` (source lines 101-106):
column split at `input_dim = 1` into `data[:, 0:input_dim]` and
`data[:, input_dim:None]`. -/
def split_input_output_data (data : List (List α)) :
    List (List α) × List (List α) :=
  let input_dim := 1
  (data.map fun row => row.take input_dim,
   data.map fun row => row.drop input_dim)

/-- `train_samples_idx = math.floor(train_pct * samples)` (source
line 62), on the binary64 value of the product. -/
def train_samples_idx (samples : ℕ) : ℕ :=
  (mathFloor (train_pct_times samples)).toNat

/-- `val_samples_idx = train_samples_idx + math.floor(val_pct * samples)`
(source line 63), on the binary64 value of the product. -/
def val_samples_idx (samples : ℕ) : ℕ :=
  train_samples_idx samples + (mathFloor (val_pct_times samples)).toNat

/-- `train_data = self.data[0:train_samples_idx]` computed on the
shuffled data (source lines 59-65); `samples` is the pre-shuffle length
(source line 56), which the shuffle preserves. -/
def train_data_of (data : List (List α)) (random_indices : List ℕ) :
    List (List α) :=
  pySlice 0 (train_samples_idx data.length) (indexSelect data random_indices)

/-- `val_data = self.data[train_samples_idx:val_samples_idx]`
(source line 66). -/
def val_data_of (data : List (List α)) (random_indices : List ℕ) :
    List (List α) :=
  pySlice (train_samples_idx data.length) (val_samples_idx data.length)
    (indexSelect data random_indices)

/-- `test_data = self.data[val_samples_idx:None]` (source line 67). -/
def test_data_of (data : List (List α)) (random_indices : List ℕ) :
    List (List α) :=
  (indexSelect data random_indices).drop (val_samples_idx data.length)

/-- `RandomDataModule.setup` (source lines 51-74): shuffles `self.data`
by the externally drawn permutation `random_indices`, splits rows at
`train_samples_idx`/`val_samples_idx`, column-splits each part, and
stores the six partition tensors.  The `stage` argument is unused, as in
the source. -/
def RandomDataModule.setup (m : RandomDataModule α) (stage : Option String)
    (random_indices : List ℕ) : RandomDataModule α :=
  let data := indexSelect m.data random_indices
  let (train_input, train_output) :=
    split_input_output_data (train_data_of m.data random_indices)
  let (val_input, val_output) :=
    split_input_output_data (val_data_of m.data random_indices)
  let (test_input, test_output) :=
    split_input_output_data (test_data_of m.data random_indices)
  { m with
    data := data
    train_input_data := some train_input
    train_output_data := some train_output
    val_input_data := some val_input
    val_output_data := some val_output
    test_input_data := some test_input
    test_output_data := some test_output }

/-- `RandomDataModule.train_dataloader` (source lines 76-83). -/
def RandomDataModule.train_dataloader (m : RandomDataModule α) :
    Option (DataLoader α) :=
  DataLoader.make ⟨m.train_input_data, m.train_output_data⟩
    m.hparams.data_num_workers m.batch_size

/-- `RandomDataModule.val_dataloader` (source lines 85-91). -/
def RandomDataModule.val_dataloader (m : RandomDataModule α) :
    Option (DataLoader α) :=
  DataLoader.make ⟨m.val_input_data, m.val_output_data⟩
    m.hparams.data_num_workers m.batch_size

/-- `RandomDataModule.test_dataloader` (source lines 93-99). -/
def RandomDataModule.test_dataloader (m : RandomDataModule α) :
    Option (DataLoader α) :=
  DataLoader.make ⟨m.test_input_data, m.test_output_data⟩
    m.hparams.data_num_workers m.batch_size

/-- Referential integrity: every visible (feature, target) pair at the
same index is the `take 1` / `drop 1` column split of one and the same
row of the raw dataset. -/
def pairedFromRaw (raw inp out : List (List α)) : Prop :=
  inp.length = out.length ∧
  ∀ i, i < inp.length → ∃ row, row ∈ raw ∧
    inp.getD i [] = row.take 1 ∧ out.getD i [] = row.drop 1

/-- Concrete 2-row dataset (width 2) used to evaluate the model. -/
def sampleData2 : List (List ℕ) := [[0, 0], [1, 1]]

/-- Concrete 10-row dataset (width 2) used to evaluate the model. -/
def sampleData10 : List (List ℕ) :=
  [[0, 0], [1, 1], [2, 2], [3, 3], [4, 4],
   [5, 5], [6, 6], [7, 7], [8, 8], [9, 9]]

/-! ### Helper lemmas -/

theorem mathFloor_eq_floor (q : ℚ) : mathFloor q = ⌊q⌋ := Rat.floor_def.symm

theorem roundSig_small (m : ℕ) (h : m < 2 ^ 53) : roundSig m = m := by
  rw [roundSig, if_pos h]

theorem log2_eq_of_bits (m e : ℕ) (h1 : 2 ^ e ≤ m) (h2 : m < 2 ^ (e + 1)) :
    Nat.log2 m = e := by
  rw [Nat.log2_eq_log_two]
  exact Nat.log_eq_of_pow_le_of_lt_pow h1 h2

theorem roundSig_of_bits (m e : ℕ) (h52 : 52 < e) (h1 : 2 ^ e ≤ m)
    (h2 : m < 2 ^ (e + 1)) :
    roundSig m =
      if m % 2 ^ (e - 52) < 2 ^ (e - 52 - 1) then
        m / 2 ^ (e - 52) * 2 ^ (e - 52)
      else if 2 ^ (e - 52 - 1) < m % 2 ^ (e - 52) then
        (m / 2 ^ (e - 52) + 1) * 2 ^ (e - 52)
      else (m / 2 ^ (e - 52) + m / 2 ^ (e - 52) % 2) * 2 ^ (e - 52) := by
  have h53 : ¬ m < 2 ^ 53 := by
    have : (2 : ℕ) ^ 53 ≤ 2 ^ e := Nat.pow_le_pow_right (by norm_num) h52
    omega
  rw [roundSig, if_neg h53, log2_eq_of_bits m e h1 h2]

theorem log2_bits_self (m : ℕ) (h : ¬ m < 2 ^ 53) :
    2 ^ Nat.log2 m ≤ m ∧ m < 2 ^ (Nat.log2 m + 1) ∧ 53 ≤ Nat.log2 m := by
  have hm0 : m ≠ 0 := by intro hh; omega
  have he1 : 2 ^ Nat.log2 m ≤ m := by
    rw [Nat.log2_eq_log_two]; exact Nat.pow_log_le_self 2 hm0
  have hlt : m < 2 ^ (Nat.log2 m + 1) := by
    rw [Nat.log2_eq_log_two]; exact Nat.lt_pow_succ_log_self (by norm_num) m
  refine ⟨he1, hlt, ?_⟩
  by_contra hc
  push_neg at hc
  have : (2 : ℕ) ^ (Nat.log2 m + 1) ≤ 2 ^ 53 :=
    Nat.pow_le_pow_right (by norm_num) (by omega)
  omega

theorem roundSig_le (m : ℕ) : roundSig m ≤ m + m / 2 ^ 53 := by
  rw [roundSig]
  split
  · omega
  · rename_i h53
    obtain ⟨he1, hlt, he53⟩ := log2_bits_self m h53
    set e := Nat.log2 m with he
    set s := e - 52 with hs
    have hs1 : 1 ≤ s := by omega
    have hP : (2 : ℕ) ^ s = 2 * 2 ^ (s - 1) := by
      have h : s - 1 + 1 = s := by omega
      calc (2 : ℕ) ^ s = 2 ^ (s - 1 + 1) := by rw [h]
        _ = 2 ^ (s - 1) * 2 := pow_succ 2 (s - 1)
        _ = 2 * 2 ^ (s - 1) := by ring
    have hHle : 2 ^ (e - 53) ≤ m / 2 ^ 53 := by
      have h53e : 53 + (e - 53) = e := by omega
      have h1 : (2 : ℕ) ^ e = 2 ^ 53 * 2 ^ (e - 53) := by
        rw [← pow_add, h53e]
      have h2 : 2 ^ 53 * 2 ^ (e - 53) / 2 ^ 53 ≤ m / 2 ^ 53 :=
        Nat.div_le_div_right (by omega)
      rwa [Nat.mul_div_cancel_left _ (by positivity)] at h2
    have hH : 2 ^ (s - 1) = 2 ^ (e - 53) := by
      have h2 : s - 1 = e - 53 := by omega
      rw [h2]
    have hqr : m = 2 ^ s * (m / 2 ^ s) + m % 2 ^ s :=
      (Nat.div_add_mod m (2 ^ s)).symm
    have hrlt : m % 2 ^ s < 2 ^ s := Nat.mod_lt m (by positivity)
    have hq1 : (m / 2 ^ s + 1) * 2 ^ s = 2 ^ s * (m / 2 ^ s) + 2 ^ s := by ring
    have hq0 : m / 2 ^ s * 2 ^ s = 2 ^ s * (m / 2 ^ s) := by ring
    have hq2 : (m / 2 ^ s + m / 2 ^ s % 2) * 2 ^ s =
        2 ^ s * (m / 2 ^ s) + m / 2 ^ s % 2 * 2 ^ s := by ring
    have hmod2 : m / 2 ^ s % 2 ≤ 1 := by omega
    have hle : m / 2 ^ s % 2 * 2 ^ s ≤ 2 ^ s := by
      rcases Nat.le_one_iff_eq_zero_or_eq_one.mp hmod2 with h | h <;> simp [h]
    split
    · omega
    · split
      · omega
      · omega

theorem roundSig_div_ge (m k : ℕ) (hm : m < 2 ^ (k + 52)) :
    m / 2 ^ k ≤ roundSig m / 2 ^ k := by
  rw [roundSig]
  split
  · omega
  · rename_i h53
    obtain ⟨he1, hlt, he53⟩ := log2_bits_self m h53
    have hes : Nat.log2 m - 52 ≤ k := by
      by_contra hc
      push_neg at hc
      have h2 : (2 : ℕ) ^ (k + 52) ≤ 2 ^ Nat.log2 m :=
        Nat.pow_le_pow_right (by norm_num) (by omega)
      omega
    set e := Nat.log2 m with he
    set s := e - 52 with hs
    have hfloor : ∀ v, m / 2 ^ s * 2 ^ s ≤ v → m / 2 ^ k ≤ v / 2 ^ k := by
      intro v hv
      have hsk : s + (k - s) = k := by omega
      have hsplit : (2 : ℕ) ^ k = 2 ^ s * 2 ^ (k - s) := by
        rw [← pow_add, hsk]
      have h1 : m / 2 ^ s * 2 ^ s / 2 ^ k = m / 2 ^ k := by
        rw [hsplit, Nat.mul_comm (2 ^ s), Nat.mul_div_mul_right _ _ (by positivity),
          Nat.div_div_eq_div_mul, Nat.mul_comm (2 ^ (k - s)), ← hsplit]
      calc m / 2 ^ k = m / 2 ^ s * 2 ^ s / 2 ^ k := h1.symm
        _ ≤ v / 2 ^ k := Nat.div_le_div_right hv
    split
    · exact hfloor _ (le_refl _)
    · split
      · exact hfloor _ (Nat.mul_le_mul_right _ (by omega))
      · exact hfloor _ (Nat.mul_le_mul_right _ (by omega))

theorem train_samples_idx_eq (n : ℕ) :
    train_samples_idx n =
      roundSig (3602879701896397 * roundSig n) / 4503599627370496 := by
  unfold train_samples_idx train_pct_times
  rw [mathFloor_eq_floor]
  have h : (roundSig (3602879701896397 * roundSig n) : ℚ) / 2 ^ 52 =
      ((roundSig (3602879701896397 * roundSig n) : ℕ) : ℚ) /
        ((4503599627370496 : ℕ) : ℚ) := by
    norm_num
  rw [h, Int.floor_toNat, Rat.natFloor_natCast_div_natCast]

theorem val_floor_toNat_eq (n : ℕ) :
    (mathFloor (val_pct_times n)).toNat =
      roundSig (3602879701896397 * roundSig n) / 36028797018963968 := by
  unfold val_pct_times
  rw [mathFloor_eq_floor]
  have h : (roundSig (3602879701896397 * roundSig n) : ℚ) / 2 ^ 55 =
      ((roundSig (3602879701896397 * roundSig n) : ℕ) : ℚ) /
        ((36028797018963968 : ℕ) : ℚ) := by
    norm_num
  rw [h, Int.floor_toNat, Rat.natFloor_natCast_div_natCast]

theorem val_samples_idx_eq (n : ℕ) :
    val_samples_idx n = train_samples_idx n +
      roundSig (3602879701896397 * roundSig n) / 36028797018963968 := by
  unfold val_samples_idx
  rw [val_floor_toNat_eq]

theorem train_samples_idx_agrees (n : ℕ) (hn : n ≤ 2 ^ 49) :
    train_samples_idx n = 4 * n / 5 := by
  have hr : roundSig n = n := roundSig_small n (by omega)
  have h1 := roundSig_le (3602879701896397 * n)
  have h2 := roundSig_div_ge (3602879701896397 * n) 52 (by omega)
  rw [train_samples_idx_eq, hr]
  omega

theorem val_floor_agrees (n : ℕ) (hn : n ≤ 2 ^ 49) :
    roundSig (3602879701896397 * roundSig n) / 36028797018963968 = n / 10 := by
  have hr : roundSig n = n := roundSig_small n (by omega)
  have h1 := roundSig_le (3602879701896397 * n)
  have h2 := roundSig_div_ge (3602879701896397 * n) 55 (by omega)
  rw [hr]
  omega

theorem train_samples_idx_le_val (n : ℕ) :
    train_samples_idx n ≤ val_samples_idx n :=
  Nat.le_add_right _ _

theorem val_samples_idx_le (n : ℕ) : val_samples_idx n ≤ n := by
  have h1 := roundSig_le n
  have h2 := roundSig_le (3602879701896397 * roundSig n)
  rw [val_samples_idx_eq, train_samples_idx_eq]
  omega

theorem roundSig_prod_ten : roundSig 36028797018963970 = 36028797018963968 := by
  rw [roundSig_of_bits 36028797018963970 55 (by norm_num) (by norm_num)
    (by norm_num)]
  decide

theorem roundSig_prod_cex : roundSig 16225927682921319225479217020927 =
    16225927682921319225479217020928 := by
  rw [roundSig_of_bits 16225927682921319225479217020927 103 (by norm_num)
    (by norm_num) (by norm_num)]
  decide

theorem train_samples_idx_ten : train_samples_idx 10 = 8 := by
  rw [train_samples_idx_eq, roundSig_small 10 (by norm_num)]
  norm_num [roundSig_prod_ten]

theorem val_samples_idx_ten : val_samples_idx 10 = 9 := by
  rw [val_samples_idx_eq, train_samples_idx_ten, roundSig_small 10 (by norm_num)]
  norm_num [roundSig_prod_ten]

theorem train_samples_idx_two : train_samples_idx 2 = 1 := by
  rw [train_samples_idx_eq, roundSig_small 2 (by norm_num)]
  rw [show (3602879701896397 * 2 : ℕ) = 7205759403792794 from by norm_num,
    roundSig_small 7205759403792794 (by norm_num)]

theorem val_samples_idx_two : val_samples_idx 2 = 1 := by
  rw [val_samples_idx_eq, train_samples_idx_two, roundSig_small 2 (by norm_num)]
  rw [show (3602879701896397 * 2 : ℕ) = 7205759403792794 from by norm_num,
    roundSig_small 7205759403792794 (by norm_num)]

theorem length_indexSelect (l : List (List α)) (p : List ℕ) :
    (indexSelect l p).length = p.length := by
  simp [indexSelect]

theorem getD_eq_of_lt (l : List β) (d : β) (i : ℕ) (h : i < l.length) :
    l.getD i d = l[i] := by
  simp [List.getD_eq_getElem?_getD, List.getElem?_eq_getElem h]

theorem range_map_getD (l : List β) (d : β) :
    (List.range l.length).map (fun i => l.getD i d) = l := by
  apply List.ext_getElem
  · simp
  · intro i h1 h2
    simp only [List.getElem_map, List.getElem_range]
    exact getD_eq_of_lt l d i h2

theorem indexSelect_perm (l : List (List α)) (p : List ℕ)
    (hp : p.Perm (List.range l.length)) : (indexSelect l p).Perm l := by
  have h1 := hp.map fun i => l.getD i []
  rw [range_map_getD] at h1
  exact h1

theorem mem_indexSelect (l : List (List α)) (p : List ℕ)
    (hp : p.Perm (List.range l.length)) (x : List α)
    (hx : x ∈ indexSelect l p) : x ∈ l :=
  (indexSelect_perm l p hp).mem_iff.1 hx

theorem mem_pySlice (a b : ℕ) (l : List α) (x : α) (hx : x ∈ pySlice a b l) :
    x ∈ l :=
  List.drop_subset a l (List.take_subset _ _ hx)

theorem length_pySlice (a b : ℕ) (l : List α) :
    (pySlice a b l).length = min (b - a) (l.length - a) := by
  simp [pySlice]

theorem slice_append (l : List α) (t v : ℕ) (h1 : t ≤ v) (h2 : v ≤ l.length) :
    pySlice 0 t l ++ pySlice t v l ++ l.drop v = l := by
  unfold pySlice
  simp only [List.drop_zero, Nat.sub_zero]
  rw [show v = t + (v - t) by omega] at *
  rw [← List.take_add]
  simp

theorem length_train_data_of (data : List (List α)) (p : List ℕ) :
    (train_data_of data p).length =
      min (train_samples_idx data.length) p.length := by
  simp [train_data_of, length_pySlice, length_indexSelect]

theorem length_val_data_of (data : List (List α)) (p : List ℕ) :
    (val_data_of data p).length =
      min (val_samples_idx data.length - train_samples_idx data.length)
        (p.length - train_samples_idx data.length) := by
  simp [val_data_of, length_pySlice, length_indexSelect]

theorem length_test_data_of (data : List (List α)) (p : List ℕ) :
    (test_data_of data p).length = p.length - val_samples_idx data.length := by
  simp [test_data_of, length_indexSelect]

theorem setup_data (m : RandomDataModule α) (stage : Option String)
    (p : List ℕ) : (m.setup stage p).data = indexSelect m.data p := rfl

theorem setup_batch_size (m : RandomDataModule α) (stage : Option String)
    (p : List ℕ) : (m.setup stage p).batch_size = m.batch_size := rfl

theorem setup_train_input (m : RandomDataModule α) (stage : Option String)
    (p : List ℕ) : (m.setup stage p).train_input_data =
      some ((train_data_of m.data p).map fun row => row.take 1) := rfl

theorem setup_train_output (m : RandomDataModule α) (stage : Option String)
    (p : List ℕ) : (m.setup stage p).train_output_data =
      some ((train_data_of m.data p).map fun row => row.drop 1) := rfl

theorem setup_val_input (m : RandomDataModule α) (stage : Option String)
    (p : List ℕ) : (m.setup stage p).val_input_data =
      some ((val_data_of m.data p).map fun row => row.take 1) := rfl

theorem setup_val_output (m : RandomDataModule α) (stage : Option String)
    (p : List ℕ) : (m.setup stage p).val_output_data =
      some ((val_data_of m.data p).map fun row => row.drop 1) := rfl

theorem setup_test_input (m : RandomDataModule α) (stage : Option String)
    (p : List ℕ) : (m.setup stage p).test_input_data =
      some ((test_data_of m.data p).map fun row => row.take 1) := rfl

theorem setup_test_output (m : RandomDataModule α) (stage : Option String)
    (p : List ℕ) : (m.setup stage p).test_output_data =
      some ((test_data_of m.data p).map fun row => row.drop 1) := rfl

theorem split_paired (raw rows : List (List α))
    (h : ∀ r ∈ rows, r ∈ raw) :
    pairedFromRaw raw (split_input_output_data rows).1
      (split_input_output_data rows).2 := by
  constructor
  · simp [split_input_output_data]
  · intro i hi
    simp only [split_input_output_data, List.length_map] at hi ⊢
    refine ⟨rows[i], h _ (List.getElem_mem hi), ?_, ?_⟩
    · have hm : i < (rows.map fun row => row.take 1).length := by simpa using hi
      rw [getD_eq_of_lt _ _ _ hm, List.getElem_map]
    · have hm : i < (rows.map fun row => row.drop 1).length := by simpa using hi
      rw [getD_eq_of_lt _ _ _ hm, List.getElem_map]

theorem init_data (hp : HParams) (data : List (List α)) :
    (RandomDataModule.init hp data).data = data := rfl

theorem init_batch_size (hp : HParams) (data : List (List α)) :
    (RandomDataModule.init hp data).batch_size = data.length := rfl

/-! ### Claim theorems -/

/-- C10: `RandomDataModule.setup` ignores its `stage` argument: running
setup from the same module state with the same drawn permutation
produces identical partition state for any two stage values, so every
per-stage invocation performs the same full reshuffle and re-split. -/
theorem setup_ignores_stage (m : RandomDataModule α) (s1 s2 : Option String)
    (p : List ℕ) : m.setup s1 p = m.setup s2 p := rfl

/-- C2 (counterexample): at `total_rows = 2^52 - 5` the binary64 product
`train_pct * total_rows` rounds up across an integer, so `setup()`
computes `train_end = 3602879701896393` while the exact-fraction formula
`floor(train_pct * total_rows) = floor(4n/5)` gives `3602879701896392`:
the claimed formula does not hold for every `total_rows ≥ 0`. -/
theorem split_formula_exact_floor_false :
    train_samples_idx 4503599627370491 = 3602879701896393 ∧
    ⌊(4 / 5 : ℚ) * ((4503599627370491 : ℕ) : ℚ)⌋ = 3602879701896392 ∧
    (3602879701896393 : ℕ) ≠ 3602879701896392 := by
  refine ⟨?_, ?_, by decide⟩
  · rw [train_samples_idx_eq, roundSig_small 4503599627370491 (by norm_num)]
    rw [show (3602879701896397 * 4503599627370491 : ℕ) =
        16225927682921319225479217020927 from by norm_num, roundSig_prod_cex]
  · have h : (4 / 5 : ℚ) * ((4503599627370491 : ℕ) : ℚ) =
        ((4 * 4503599627370491 : ℕ) : ℚ) / ((5 : ℕ) : ℚ) := by
      push_cast; ring
    rw [h, Rat.floor_natCast_div_natCast]
    decide

/-- C2 (amended): `setup()` computes
`train_end = floor(train_pct * total_rows)` and
`val_end = train_end + floor(val_pct * total_rows)` in binary64 floating
point; for every `total_rows ≤ 2^49` (far beyond any in-memory dataset)
these agree with the exact-fraction floors `floor(4n/5)` and
`floor(4n/5) + floor(n/10)`, and the partitions are taken as the row
ranges `[0, train_end)`, `[train_end, val_end)`, `[val_end, total_rows)`;
in particular `total_rows = 10` yields `[0,8), [8,9), [9,10)` and
`total_rows = 2` yields `[0,1), [1,1), [1,2)`. -/
theorem setup_split_index_agrees :
    (∀ n : ℕ, n ≤ 2 ^ 49 →
      (train_samples_idx n : ℤ) = ⌊(4 / 5 : ℚ) * n⌋ ∧
      (val_samples_idx n : ℤ) = ⌊(4 / 5 : ℚ) * n⌋ + ⌊(1 / 10 : ℚ) * n⌋) ∧
    (∀ (α : Type) (hp : HParams) (data : List (List α))
        (stage : Option String) (p : List ℕ),
      ((RandomDataModule.init hp data).setup stage p).train_input_data =
        some ((pySlice 0 (train_samples_idx data.length)
          (indexSelect data p)).map fun row => row.take 1) ∧
      ((RandomDataModule.init hp data).setup stage p).val_input_data =
        some ((pySlice (train_samples_idx data.length)
          (val_samples_idx data.length)
          (indexSelect data p)).map fun row => row.take 1) ∧
      ((RandomDataModule.init hp data).setup stage p).test_input_data =
        some (((indexSelect data p).drop
          (val_samples_idx data.length)).map fun row => row.take 1)) ∧
    (train_samples_idx 10 = 8 ∧ val_samples_idx 10 = 9) ∧
    (train_samples_idx 2 = 1 ∧ val_samples_idx 2 = 1) := by
  refine ⟨?_, ?_, ⟨train_samples_idx_ten, val_samples_idx_ten⟩,
    train_samples_idx_two, val_samples_idx_two⟩
  · intro n hn
    have h4 : (4 / 5 : ℚ) * n = ((4 * n : ℕ) : ℚ) / ((5 : ℕ) : ℚ) := by
      push_cast; ring
    have h1 : (1 / 10 : ℚ) * n = ((1 * n : ℕ) : ℚ) / ((10 : ℕ) : ℚ) := by
      push_cast; ring
    rw [h4, h1, Rat.floor_natCast_div_natCast, Rat.floor_natCast_div_natCast]
    constructor
    · rw [train_samples_idx_agrees n hn]; omega
    · rw [val_samples_idx_eq, train_samples_idx_agrees n hn,
        val_floor_agrees n hn]; omega
  · intro α hp data stage p
    exact ⟨rfl, rfl, rfl⟩

/-- Witness for C2 (amended): the index formula evaluated at `n = 7`. -/
theorem setup_split_index_agrees_witness :
    (train_samples_idx 7 : ℤ) = ⌊(4 / 5 : ℚ) * (7 : ℕ)⌋ :=
  (setup_split_index_agrees.1 7 (by norm_num)).1

/-- C3: for every `total_rows`, the three index ranges produced by
`setup()` are pairwise disjoint, their union is exactly `[0, total_rows)`
and their sizes sum to `total_rows`; combined with the shuffle being a
permutation, the three partitions together contain exactly the rows of
the original raw dataset. -/
theorem split_ranges_partition_raw :
    (∀ n : ℕ,
      Disjoint (Finset.Ico 0 (train_samples_idx n))
        (Finset.Ico (train_samples_idx n) (val_samples_idx n)) ∧
      Disjoint (Finset.Ico (train_samples_idx n) (val_samples_idx n))
        (Finset.Ico (val_samples_idx n) n) ∧
      Disjoint (Finset.Ico 0 (train_samples_idx n))
        (Finset.Ico (val_samples_idx n) n) ∧
      Finset.Ico 0 (train_samples_idx n) ∪
        Finset.Ico (train_samples_idx n) (val_samples_idx n) ∪
        Finset.Ico (val_samples_idx n) n = Finset.range n ∧
      train_samples_idx n + (val_samples_idx n - train_samples_idx n) +
        (n - val_samples_idx n) = n) ∧
    ∀ (α : Type) (data : List (List α)) (p : List ℕ),
      p.Perm (List.range data.length) →
      (train_data_of data p ++ val_data_of data p ++
        test_data_of data p).Perm data := by
  constructor
  · intro n
    have h1 := train_samples_idx_le_val n
    have h2 := val_samples_idx_le n
    refine ⟨Finset.Ico_disjoint_Ico_consecutive _ _ _,
      Finset.Ico_disjoint_Ico_consecutive _ _ _, ?_, ?_, by omega⟩
    · rw [Finset.disjoint_left]
      intro a ha hb
      simp only [Finset.mem_Ico] at ha hb
      omega
    · rw [Finset.Ico_union_Ico_eq_Ico (Nat.zero_le _) h1,
        Finset.Ico_union_Ico_eq_Ico (Nat.zero_le _) h2, Finset.range_eq_Ico]
  · intro α data p hp
    have hlen : p.length = data.length := by simpa using hp.length_eq
    have hsel : (indexSelect data p).length = data.length := by
      rw [length_indexSelect, hlen]
    have hconcat : train_data_of data p ++ val_data_of data p ++
        test_data_of data p = indexSelect data p := by
      unfold train_data_of val_data_of test_data_of
      exact slice_append _ _ _ (train_samples_idx_le_val _)
        (by rw [hsel]; exact val_samples_idx_le _)
    rw [hconcat]
    exact indexSelect_perm data p hp

/-- Witness for C3: concatenated partitions of the 2-row dataset under
the swap permutation are a permutation of the raw rows. -/
theorem split_ranges_partition_raw_witness :
    (train_data_of sampleData2 [1, 0] ++ val_data_of sampleData2 [1, 0] ++
      test_data_of sampleData2 [1, 0]).Perm sampleData2 :=
  split_ranges_partition_raw.2 ℕ sampleData2 [1, 0] (by decide)

/-- C5 (counterexample): for `total_rows = 10` the test partition has 1
row, but `total_rows - train_end - val_end` (with `val_end` as the claim
and spec define it, `train_end + floor(val_pct * total_rows)`) is
`10 - 8 - 9 = -7 ≠ 1`. -/
theorem test_size_literal_formula_false :
    (((RandomDataModule.init ⟨4⟩ sampleData10).setup none
        (List.range 10)).test_input_data).map List.length = some 1 ∧
    (10 : ℤ) - train_samples_idx 10 - val_samples_idx 10 = -7 ∧
    (1 : ℤ) ≠ -7 := by
  refine ⟨?_, by rw [train_samples_idx_ten, val_samples_idx_ten]; decide,
    by decide⟩
  simp only [setup_test_input, init_data, test_data_of]
  rw [show sampleData10.length = 10 from rfl, val_samples_idx_ten]
  decide

/-- C5 (amended): the size of the test range equals
`total_rows - val_end`, i.e. `total_rows - train_end -
floor(val_pct * total_rows)`: all rows lost to flooring are absorbed into
the test range. -/
theorem test_size_is_remainder (α : Type) (hp : HParams)
    (data : List (List α)) (stage : Option String) (p : List ℕ)
    (h : p.length = data.length) :
    ∀ l, ((RandomDataModule.init hp data).setup stage p).test_input_data =
        some l →
      l.length = data.length - val_samples_idx data.length ∧
      data.length - val_samples_idx data.length =
        data.length - train_samples_idx data.length -
          (mathFloor (val_pct_times data.length)).toNat := by
  intro l hl
  rw [setup_test_input] at hl
  constructor
  · have hl2 : l = (test_data_of (RandomDataModule.init hp data).data p).map
        fun row => row.take 1 := (Option.some.inj hl).symm
    rw [hl2, List.length_map, length_test_data_of, init_data, h]
  · unfold val_samples_idx
    omega

/-- Witness for C5: the 10-row dataset with the identity permutation has
a 1-row test partition, matching the remainder formula. -/
theorem test_size_is_remainder_witness :
    ([[(9 : ℕ)]] : List (List ℕ)).length =
      sampleData10.length - val_samples_idx sampleData10.length :=
  (test_size_is_remainder ℕ ⟨4⟩ sampleData10 none (List.range 10) (by decide)
    [[9]]
    (by simp only [setup_test_input, init_data, test_data_of]
        rw [show sampleData10.length = 10 from rfl, val_samples_idx_ten]
        decide)).1

/-- C1 (counterexample): after `setup()` on a 10-row dataset, the train
loader's batch size is 10 (the full dataset row count fixed in
`__init__`) while its own partition has 8 rows, so the loader batch size
does not equal the partition's row count. -/
theorem batch_size_not_partition_rows :
    ((RandomDataModule.init ⟨4⟩ sampleData10).setup none
        (List.range 10)).train_dataloader.map
      (fun dl => (dl.batch_size, dl.dataset.len)) = some (10, some 8) ∧
    (10 : ℕ) ≠ 8 := by
  refine ⟨?_, by decide⟩
  simp only [RandomDataModule.train_dataloader, setup_train_input,
    setup_train_output, setup_batch_size, init_data, train_data_of,
    DataLoader.make, VectorDataset.len]
  rw [show sampleData10.length = 10 from rfl, train_samples_idx_ten]
  decide

/-- C1 (amended): after `setup()` each of the three loaders is
constructed successfully with batch size equal to the total row count of
the raw dataset captured at construction (not its own partition's row
count), and a loader whose partition is empty produces zero batches
rather than an error. -/
theorem loader_batch_size_eq_total_rows (α : Type) (hp : HParams)
    (data : List (List α)) (stage : Option String) (p : List ℕ)
    (h : 0 < data.length) :
    (((RandomDataModule.init hp data).setup stage p).train_dataloader.map
        DataLoader.batch_size = some data.length ∧
     ((RandomDataModule.init hp data).setup stage p).val_dataloader.map
        DataLoader.batch_size = some data.length ∧
     ((RandomDataModule.init hp data).setup stage p).test_dataloader.map
        DataLoader.batch_size = some data.length) ∧
    ∀ dl : DataLoader α,
      (((RandomDataModule.init hp data).setup stage p).train_dataloader =
          some dl ∨
       ((RandomDataModule.init hp data).setup stage p).val_dataloader =
          some dl ∨
       ((RandomDataModule.init hp data).setup stage p).test_dataloader =
          some dl) →
      dl.dataset.len = some 0 → dl.numBatches = some 0 := by
  have hne : data.length ≠ 0 := Nat.pos_iff_ne_zero.mp h
  have hbs : ((RandomDataModule.init hp data).setup stage p).batch_size =
      data.length := by rw [setup_batch_size, init_batch_size]
  constructor
  · refine ⟨?_, ?_, ?_⟩ <;>
      simp [RandomDataModule.train_dataloader, RandomDataModule.val_dataloader,
        RandomDataModule.test_dataloader, DataLoader.make, hbs, hne]
  · intro dl hor hlen
    have hb : dl.batch_size = data.length := by
      rcases hor with h1 | h1 | h1 <;>
      · simp [RandomDataModule.train_dataloader, RandomDataModule.val_dataloader,
          RandomDataModule.test_dataloader, DataLoader.make, hbs, hne] at h1
        rw [← h1]
    rw [DataLoader.numBatches, hlen, hb, Option.map_some']
    have : (0 + data.length - 1) / data.length = 0 :=
      Nat.div_eq_of_lt (by omega)
    rw [this]

/-- Witness for C1 (amended) on the 2-row dataset with the swap
permutation. -/
theorem loader_batch_size_eq_total_rows_witness :
    ((RandomDataModule.init ⟨4⟩ sampleData2).setup none
        [1, 0]).train_dataloader.map DataLoader.batch_size =
      some sampleData2.length :=
  (loader_batch_size_eq_total_rows ℕ ⟨4⟩ sampleData2 none [1, 0]
    (by decide)).1.1

/-- C6 (counterexample): invoking the train loader accessor before
`setup()` does not fail: it returns a loader whose wrapped dataset holds
`None` in both slots, and the train partition attribute reads as `None`
rather than raising. -/
theorem accessor_before_setup_no_error :
    (RandomDataModule.init ⟨4⟩ sampleData2).train_dataloader ≠ none ∧
    (RandomDataModule.init ⟨4⟩ sampleData2).train_dataloader.map
      (fun dl => (dl.dataset.input_data, dl.dataset.output_data)) =
      some (none, none) ∧
    (RandomDataModule.init ⟨4⟩ sampleData2).train_input_data = none := by
  decide

/-- C6 (amended): before `setup()` no accessor raises an
uninitialized-state error: on a nonempty raw dataset all three loader
accessors succeed, each returning a loader wrapping `None` partition
data — failure is deferred to consumption; on an empty raw dataset the
loader accessors do fail, but with `DataLoader`'s invalid-batch-size
error (`batch_size = 0` rejected at construction), not an
uninitialized-state error; and all six partition attributes read as
`None` without error in every case. -/
theorem accessors_before_setup_behavior (α : Type) (hp : HParams)
    (data : List (List α)) :
    (0 < data.length →
      ((RandomDataModule.init hp data).train_dataloader.map
          (fun dl => (dl.dataset.input_data, dl.dataset.output_data)) =
        some (none, none)) ∧
      ((RandomDataModule.init hp data).val_dataloader.map
          (fun dl => (dl.dataset.input_data, dl.dataset.output_data)) =
        some (none, none)) ∧
      ((RandomDataModule.init hp data).test_dataloader.map
          (fun dl => (dl.dataset.input_data, dl.dataset.output_data)) =
        some (none, none))) ∧
    (data.length = 0 →
      (RandomDataModule.init hp data).train_dataloader = none ∧
      (RandomDataModule.init hp data).val_dataloader = none ∧
      (RandomDataModule.init hp data).test_dataloader = none) ∧
    (RandomDataModule.init hp data).train_input_data = none ∧
    (RandomDataModule.init hp data).train_output_data = none ∧
    (RandomDataModule.init hp data).val_input_data = none ∧
    (RandomDataModule.init hp data).val_output_data = none ∧
    (RandomDataModule.init hp data).test_input_data = none ∧
    (RandomDataModule.init hp data).test_output_data = none := by
  refine ⟨?_, ?_, rfl, rfl, rfl, rfl, rfl, rfl⟩
  · intro h
    have hne : data.length ≠ 0 := Nat.pos_iff_ne_zero.mp h
    refine ⟨?_, ?_, ?_⟩ <;>
      simp [RandomDataModule.train_dataloader, RandomDataModule.val_dataloader,
        RandomDataModule.test_dataloader, RandomDataModule.init,
        DataLoader.make, hne]
  · intro h0
    refine ⟨?_, ?_, ?_⟩ <;>
      simp [RandomDataModule.train_dataloader, RandomDataModule.val_dataloader,
        RandomDataModule.test_dataloader, RandomDataModule.init,
        DataLoader.make, h0]

/-- Witness for C6 (amended) on the 2-row dataset. -/
theorem accessors_before_setup_behavior_witness :
    (RandomDataModule.init ⟨4⟩ sampleData2).train_dataloader.map
        (fun dl => (dl.dataset.input_data, dl.dataset.output_data)) =
      some (none, none) :=
  ((accessors_before_setup_behavior ℕ ⟨4⟩ sampleData2).1 (by decide)).1

/-- C7 (counterexample): `get(-1)` on a 1-row dataset returns the pair
(torch negative-index wrap-around) instead of failing with an
out-of-range error. -/
theorem getitem_negative_index_succeeds :
    VectorDataset.getItem
        (⟨some [[1]], some [[2]]⟩ : VectorDataset ℕ) (-1) =
      some ([1], [2]) ∧
    (some ([1], [2]) : Option (List ℕ × List ℕ)) ≠ none := by
  decide

/-- C7 (amended): `get(index)` returns the `(feature, target)` pair for
`0 ≤ index < length()`, also returns a pair for negative indices in
`[-length(), 0)` by indexing from the end, and fails with an
out-of-range error exactly for `index < -length()` or
`index ≥ length()`. -/
theorem getitem_index_semantics (α : Type) (ds : VectorDataset α)
    (inp out : List (List α)) (hi : ds.input_data = some inp)
    (ho : ds.output_data = some out) (hlen : inp.length = out.length) :
    (∀ idx : ℤ, 0 ≤ idx → idx < inp.length →
      ds.getItem idx =
        some (inp.getD idx.toNat [], out.getD idx.toNat [])) ∧
    (∀ idx : ℤ, -(inp.length : ℤ) ≤ idx → idx < 0 →
      ds.getItem idx =
        some (inp.getD (idx + inp.length).toNat [],
          out.getD (idx + out.length).toNat [])) ∧
    (∀ idx : ℤ, idx < -(inp.length : ℤ) ∨ (inp.length : ℤ) ≤ idx →
      ds.getItem idx = none) := by
  refine ⟨?_, ?_, ?_⟩
  · intro idx h0 hlt
    have hi1 : idx.toNat < inp.length := by omega
    have hi2 : idx.toNat < out.length := by omega
    have ha : pyGetIdx inp idx = some (inp.getD idx.toNat []) := by
      rw [pyGetIdx, if_pos h0, List.get?_eq_getElem?,
        List.getElem?_eq_getElem hi1, getD_eq_of_lt _ _ _ hi1]
    have hb : pyGetIdx out idx = some (out.getD idx.toNat []) := by
      rw [pyGetIdx, if_pos h0, List.get?_eq_getElem?,
        List.getElem?_eq_getElem hi2, getD_eq_of_lt _ _ _ hi2]
    simp [VectorDataset.getItem, hi, ho, ha, hb]
  · intro idx hge hlt
    have hi1 : (idx + (inp.length : ℤ)).toNat < inp.length := by omega
    have hi2 : (idx + (out.length : ℤ)).toNat < out.length := by omega
    have ha : pyGetIdx inp idx =
        some (inp.getD (idx + inp.length).toNat []) := by
      rw [pyGetIdx, if_neg (by omega), if_pos (by omega),
        List.get?_eq_getElem?, List.getElem?_eq_getElem hi1,
        getD_eq_of_lt _ _ _ hi1]
    have hb : pyGetIdx out idx =
        some (out.getD (idx + out.length).toNat []) := by
      rw [pyGetIdx, if_neg (by omega), if_pos (by omega),
        List.get?_eq_getElem?, List.getElem?_eq_getElem hi2,
        getD_eq_of_lt _ _ _ hi2]
    simp [VectorDataset.getItem, hi, ho, ha, hb]
  · intro idx hcase
    rcases hcase with hlt | hge
    · have ha : pyGetIdx inp idx = none := by
        rw [pyGetIdx, if_neg (by omega), if_neg (by omega)]
      simp [VectorDataset.getItem, hi, ho, ha]
    · have ha : pyGetIdx inp idx = none := by
        rw [pyGetIdx, if_pos (by omega), List.get?_eq_getElem?]
        exact List.getElem?_eq_none (by omega)
      simp [VectorDataset.getItem, hi, ho, ha]

/-- Witness for C7 (amended): in-range index 1 of a 2-row dataset. -/
theorem getitem_index_semantics_witness :
    VectorDataset.getItem
        (⟨some [[1], [2]], some [[3], [4]]⟩ : VectorDataset ℕ) 1 =
      some ([2], [4]) := by
  have h := (getitem_index_semantics ℕ ⟨some [[1], [2]], some [[3], [4]]⟩
    [[1], [2]] [[3], [4]] rfl rfl rfl).1 1 (by decide) (by decide)
  rw [h]
  decide

/-- C8 (counterexample): with `input_dim = 1` and row width 1 (so
`input_dim ≥ row_width`), the column split does not fail with a
shape-mismatch error: it returns the features unchanged and empty target
rows. -/
theorem column_split_no_failure :
    split_input_output_data [[(5 : ℕ)], [7]] = ([[5], [7]], [[], []]) := by
  decide

/-- C8 (amended): the column split never raises: it is total, the feature
and target tables always have the same row count as the input (so the
row counts of a partition cannot diverge and no divergence check
exists), and when `input_dim ≥ row_width` the target rows are empty
vectors rather than an error. -/
theorem column_split_total_shapes (α : Type) (data : List (List α)) :
    (split_input_output_data data).1.length = data.length ∧
    (split_input_output_data data).2.length = data.length ∧
    ∀ i, i < data.length →
      (split_input_output_data data).1.getD i [] = (data.getD i []).take 1 ∧
      (split_input_output_data data).2.getD i [] = (data.getD i []).drop 1 ∧
      ((data.getD i []).length ≤ 1 →
        (split_input_output_data data).2.getD i [] = []) := by
  refine ⟨by simp [split_input_output_data], by simp [split_input_output_data],
    ?_⟩
  intro i hi
  have hm1 : i < ((split_input_output_data data).1).length := by
    simpa [split_input_output_data] using hi
  have hm2 : i < ((split_input_output_data data).2).length := by
    simpa [split_input_output_data] using hi
  have e1 : (split_input_output_data data).1.getD i [] =
      (data.getD i []).take 1 := by
    rw [getD_eq_of_lt _ _ _ hm1, getD_eq_of_lt _ _ _ hi]
    simp [split_input_output_data]
  have e2 : (split_input_output_data data).2.getD i [] =
      (data.getD i []).drop 1 := by
    rw [getD_eq_of_lt _ _ _ hm2, getD_eq_of_lt _ _ _ hi]
    simp [split_input_output_data]
  refine ⟨e1, e2, ?_⟩
  intro hw
  rw [e2]
  exact List.drop_eq_nil_of_le hw

/-- Witness for C8 (amended): the width-1 row yields an empty target
row. -/
theorem column_split_total_shapes_witness :
    (split_input_output_data [[(5 : ℕ)], [8]]).2.getD 0 [] = [] :=
  ((column_split_total_shapes ℕ [[5], [8]]).2.2 0 (by decide)).2.2 (by decide)

/-- C4: for every row index visible via any of the three partitions after
`setup()`, the feature vector is the first `input_dim = 1` values and the
target vector the remaining values of one and the same original raw
dataset row: referential integrity is preserved through shuffle, range
split and column split. -/
theorem partitions_referential_integrity (α : Type) (hp : HParams)
    (data : List (List α)) (stage : Option String) (p : List ℕ)
    (h : p.Perm (List.range data.length)) :
    (∀ inp out,
      ((RandomDataModule.init hp data).setup stage p).train_input_data =
        some inp →
      ((RandomDataModule.init hp data).setup stage p).train_output_data =
        some out →
      pairedFromRaw data inp out) ∧
    (∀ inp out,
      ((RandomDataModule.init hp data).setup stage p).val_input_data =
        some inp →
      ((RandomDataModule.init hp data).setup stage p).val_output_data =
        some out →
      pairedFromRaw data inp out) ∧
    (∀ inp out,
      ((RandomDataModule.init hp data).setup stage p).test_input_data =
        some inp →
      ((RandomDataModule.init hp data).setup stage p).test_output_data =
        some out →
      pairedFromRaw data inp out) := by
  have hsub_train : ∀ r ∈ train_data_of data p, r ∈ data := fun r hr =>
    mem_indexSelect data p h r (mem_pySlice _ _ _ r hr)
  have hsub_val : ∀ r ∈ val_data_of data p, r ∈ data := fun r hr =>
    mem_indexSelect data p h r (mem_pySlice _ _ _ r hr)
  have hsub_test : ∀ r ∈ test_data_of data p, r ∈ data := fun r hr =>
    mem_indexSelect data p h r (List.drop_subset _ _ hr)
  refine ⟨?_, ?_, ?_⟩ <;>
  · intro inp out h1 h2
    first
      | rw [setup_train_input, init_data] at h1
      | rw [setup_val_input, init_data] at h1
      | rw [setup_test_input, init_data] at h1
    first
      | rw [setup_train_output, init_data] at h2
      | rw [setup_val_output, init_data] at h2
      | rw [setup_test_output, init_data] at h2
    obtain rfl := (Option.some.inj h1).symm
    obtain rfl := (Option.some.inj h2).symm
    first
      | exact split_paired data (train_data_of data p) hsub_train
      | exact split_paired data (val_data_of data p) hsub_val
      | exact split_paired data (test_data_of data p) hsub_test

/-- Witness for C4: the train partition of the 2-row dataset under the
swap permutation pairs feature `[1]` with target `[1]`, both from raw
row `[1, 1]`. -/
theorem partitions_referential_integrity_witness :
    pairedFromRaw sampleData2 [[1]] [[1]] :=
  (partitions_referential_integrity ℕ ⟨1⟩ sampleData2 none [1, 0]
    (by decide)).1 [[1]] [[1]]
    (by simp only [setup_train_input, init_data, train_data_of]
        rw [show sampleData2.length = 2 from rfl, train_samples_idx_two]
        decide)
    (by simp only [setup_train_output, init_data, train_data_of]
        rw [show sampleData2.length = 2 from rfl, train_samples_idx_two]
        decide)

/-- C9 (counterexample): calling `setup()` twice with the identically
seeded permutation source (the swap permutation both times) on the 2-row
dataset gives a train partition `[[0]]` after the second call but
`[[1]]` after the first: the partitions are not bit-identical and do not
even hold the same row multiset. -/
theorem setup_twice_not_identical :
    (((RandomDataModule.init ⟨1⟩ sampleData2).setup none [1, 0]).setup none
        [1, 0]).train_input_data = some [[0]] ∧
    ((RandomDataModule.init ⟨1⟩ sampleData2).setup none
        [1, 0]).train_input_data = some [[1]] ∧
    (some [[(0 : ℕ)]] : Option (List (List ℕ))) ≠ some [[1]] := by
  refine ⟨?_, ?_, by decide⟩
  · simp only [setup_train_input, setup_data, init_data, train_data_of]
    rw [show (indexSelect sampleData2 [1, 0]).length = 2 from rfl,
      train_samples_idx_two]
    decide
  · simp only [setup_train_input, init_data, train_data_of]
    rw [show sampleData2.length = 2 from rfl, train_samples_idx_two]
    decide

/-- C9 (amended): a second `setup()` with the identically seeded
permutation source produces partitions of the same sizes as the first,
and the combined rows of its three partitions are still a permutation of
the original raw dataset; but it reshuffles the already-shuffled rows
(the permutation is applied twice), so the partitions are not
bit-identical in general. -/
theorem setup_twice_same_shape (α : Type) (m : RandomDataModule α)
    (stage : Option String) (p : List ℕ)
    (h : p.Perm (List.range m.data.length)) :
    (((m.setup stage p).setup stage p).train_input_data.map List.length =
        (m.setup stage p).train_input_data.map List.length ∧
      ((m.setup stage p).setup stage p).train_output_data.map List.length =
        (m.setup stage p).train_output_data.map List.length ∧
      ((m.setup stage p).setup stage p).val_input_data.map List.length =
        (m.setup stage p).val_input_data.map List.length ∧
      ((m.setup stage p).setup stage p).val_output_data.map List.length =
        (m.setup stage p).val_output_data.map List.length ∧
      ((m.setup stage p).setup stage p).test_input_data.map List.length =
        (m.setup stage p).test_input_data.map List.length ∧
      ((m.setup stage p).setup stage p).test_output_data.map List.length =
        (m.setup stage p).test_output_data.map List.length) ∧
    (train_data_of (m.setup stage p).data p ++
      val_data_of (m.setup stage p).data p ++
      test_data_of (m.setup stage p).data p).Perm m.data := by
  have hlen : p.length = m.data.length := by simpa using h.length_eq
  have hdlen : (m.setup stage p).data.length = m.data.length := by
    rw [setup_data, length_indexSelect, hlen]
  have h2 : p.Perm (List.range (m.setup stage p).data.length) := by
    rw [hdlen]; exact h
  constructor
  · refine ⟨?_, ?_, ?_, ?_, ?_, ?_⟩ <;>
      simp only [setup_train_input, setup_train_output, setup_val_input,
        setup_val_output, setup_test_input, setup_test_output,
        Option.map_some', List.length_map, length_train_data_of,
        length_val_data_of, length_test_data_of, hdlen]
  · have hconcat : train_data_of (m.setup stage p).data p ++
        val_data_of (m.setup stage p).data p ++
        test_data_of (m.setup stage p).data p =
          indexSelect (m.setup stage p).data p := by
      unfold train_data_of val_data_of test_data_of
      refine slice_append _ _ _ (train_samples_idx_le_val _) ?_
      rw [length_indexSelect, hlen, ← hdlen]
      exact val_samples_idx_le _
    rw [hconcat]
    exact ((indexSelect_perm _ p h2).trans
      (by rw [setup_data]; exact indexSelect_perm m.data p h))

/-- Witness for C9 (amended): equal train-partition sizes across two
identically seeded `setup()` calls on the 2-row dataset. -/
theorem setup_twice_same_shape_witness :
    (((RandomDataModule.init ⟨1⟩ sampleData2).setup none [1, 0]).setup none
        [1, 0]).train_input_data.map List.length =
      ((RandomDataModule.init ⟨1⟩ sampleData2).setup none
        [1, 0]).train_input_data.map List.length :=
  (setup_twice_same_shape ℕ (RandomDataModule.init ⟨1⟩ sampleData2) none
    [1, 0] (by decide)).1.1

end GPExample
